import Mathlib

/-!
Shallow embedding of the Tredence workflow engine (app/engine.py,
app/models.py, app/registry.py, app/storage.py).

Python dicts are modelled as insertion-ordered association lists over
String keys; guard condition strings are modelled by their evaluation
function on the state, which may error (Python eval raising); tools are
modelled by their observable outcome: a returned dict, a non-dict return
value, or a raised exception.
-/

namespace Tredence

/-- Python Dict with String keys: an insertion-ordered association list. -/
abbrev Smap (V : Type) := List (String × V)

/-- Python dict assignment d[k] = v: update the key in place if present
(keeping its position), else append the new binding at the end. -/
def dictSet {V : Type} (d : Smap V) (k : String) (v : V) : Smap V :=
  match d with
  | [] => [(k, v)]
  | (k', v') :: rest => if k' == k then (k', v) :: rest else (k', v') :: dictSet rest k v

/-- Python base.update(upd): right-biased merge, assigning each binding of
upd into base in order (engine.py run_state.state.update(tool_result)). -/
def dictUpdate {V : Type} (base upd : Smap V) : Smap V :=
  upd.foldl (fun acc kv => dictSet acc kv.1 kv.2) base

/-- models.NodeDefinition: node id and the registry name of its tool
(the opaque config plays no part in execution). -/
structure NodeDefinition where
  id : String
  tool_name : String

/-- models.EdgeDefinition: source and target node ids and an optional guard.
The condition string evaluated by Python eval against the state is embedded
as its evaluation function, which may raise (Except.error). -/
structure EdgeDefinition (V : Type) where
  source : String
  target : String
  condition : Option (Smap V → Except String Bool)

/-- models.GraphDefinition. -/
structure GraphDefinition (V : Type) where
  id : String
  nodes : List NodeDefinition
  edges : List (EdgeDefinition V)
  start_node_id : String

/-- models.RunStatus. -/
inductive RunStatus where
  | pending
  | running
  | completed
  | failed
deriving DecidableEq, Repr

/-- models.RunLogEntry. -/
structure RunLogEntry (V : Type) where
  node_id : String
  state_snapshot : Smap V
  message : Option String
deriving DecidableEq

/-- models.RunState. -/
structure RunState (V : Type) where
  run_id : String
  graph_id : String
  status : RunStatus
  current_node_id : Option String
  state : Smap V
  logs : List (RunLogEntry V)
deriving DecidableEq

/-- registry.ToolRegistry: observable outcome of invoking a tool on a state.
A Python tool may return a dict, return a non-dict value, or raise. -/
inductive ToolOutcome (V : Type) where
  | ok (result : Smap V)
  | nonDict
  | raises (msg : String)

/-- A registered tool, by its observable behaviour on a state. -/
abbrev Tool (V : Type) := Smap V → ToolOutcome V

/-- registry.ToolRegistry: name-keyed mapping of tools. -/
structure ToolRegistry (V : Type) where
  tools : Smap (Tool V)

/-- registry.ToolRegistry.run_tool: look up the tool (KeyError if absent),
invoke it (a raise propagates), and reject a non-dict result (ValueError). -/
def ToolRegistry.run_tool {V : Type} (reg : ToolRegistry V) (name : String)
    (state : Smap V) : Except String (Smap V) :=
  match reg.tools.lookup name with
  | none => .error ("Tool '" ++ name ++ "' not found in registry")
  | some f =>
    match f state with
    | .raises msg => .error msg
    | .nonDict => .error "Tool must return a dict to merge into state"
    | .ok r => .ok r

/-- The scan inside engine._find_next_edge: walk the candidate edges in
order; an edge with no condition is returned at once (default edge); a
condition is evaluated and a true result returns the edge; a false result
or an evaluation error skips to the next candidate. -/
def findScan {V : Type} (state : Smap V) :
    List (EdgeDefinition V) → Option (EdgeDefinition V)
  | [] => none
  | e :: rest =>
    match e.condition with
    | none => some e
    | some c =>
      match c state with
      | .ok true => some e
      | _ => findScan state rest

/-- engine._find_next_edge: restrict to edges whose source is the current
node, in declared order, and scan them. -/
def find_next_edge {V : Type} (g : GraphDefinition V) (current_node_id : String)
    (state : Smap V) : Option (EdgeDefinition V) :=
  let candidates := g.edges.filter (fun e => e.source == current_node_id)
  if candidates.isEmpty then none
  else findScan state candidates

/-- Specification-side predicate: an edge matches a state when it has no
guard, or its guard evaluates to true without error. -/
def edgeMatches {V : Type} (state : Smap V) (e : EdgeDefinition V) : Bool :=
  match e.condition with
  | none => true
  | some c =>
    match c state with
    | .ok true => true
    | _ => false

/-- storage.graphs: the in-memory graph store. -/
abbrev Graphs (V : Type) := Smap (GraphDefinition V)

/-- storage.runs: the in-memory run store. -/
abbrev Runs (V : Type) := Smap (RunState V)

/-- The log message of the step-limit abort in engine.run_graph_once. -/
def maxStepsMessage : String := "Max steps reached; aborting (possible infinite loop)"

/-- The log message appended when the current node is absent from the graph. -/
def missingNodeMessage (node_id : String) : String :=
  "Node '" ++ node_id ++ "' not found in graph"

/-- The log message appended after a successful tool invocation. -/
def executedMessage (tool_name : String) : String :=
  "Executed tool '" ++ tool_name ++ "'"

/-- The for/else step loop of engine.run_graph_once, with the remaining
iteration budget as fuel. Exhausted fuel is the for/else branch: status
FAILED plus the abort entry. Each iteration resolves the node (absent:
FAILED plus a missing-node entry, not raised), invokes the tool (an error
propagates as Except.error carrying the run record as it stands, no entry
appended), merges the result right-biased, appends a log entry whose
snapshot is the post-merge state, and resolves the next edge (none:
COMPLETED with the current node id cleared; some: move to its target). -/
def stepLoop {V : Type} (g : GraphDefinition V) (registry : ToolRegistry V) :
    Nat → String → RunState V → Except (String × RunState V) (RunState V)
  | 0, current_node_id, rs =>
    .ok { rs with
          status := .failed,
          logs := rs.logs ++ [{ node_id := current_node_id,
                                state_snapshot := rs.state,
                                message := some maxStepsMessage }] }
  | fuel + 1, current_node_id, rs =>
    match g.nodes.find? (fun n => n.id == current_node_id) with
    | none =>
      .ok { rs with
            status := .failed,
            logs := rs.logs ++ [{ node_id := current_node_id,
                                  state_snapshot := rs.state,
                                  message := some (missingNodeMessage current_node_id) }] }
    | some node =>
      match registry.run_tool node.tool_name rs.state with
      | .error e => .error (e, rs)
      | .ok tool_result =>
        let newState := dictUpdate rs.state tool_result
        let rs' : RunState V :=
          { rs with
            state := newState,
            logs := rs.logs ++ [{ node_id := node.id,
                                  state_snapshot := newState,
                                  message := some (executedMessage node.tool_name) }] }
        match find_next_edge g current_node_id newState with
        | none => .ok { rs' with status := .completed, current_node_id := none }
        | some edge =>
          stepLoop g registry fuel edge.target { rs' with current_node_id := some edge.target }

/-- engine.run_graph_once. An unknown graph id raises KeyError before any
run record is created (the run store is returned unchanged). Otherwise the
run record is created RUNNING at the start node with a copy of the initial
state, stored under the fresh run id, and the step loop is executed. The
stored record aliases the run record in Python, so after the call the
store holds the record as the loop left it: the final record on normal
return, or the record as it stood when a tool invocation raised. -/
def run_graph_once {V : Type} (graphs : Graphs V) (runs : Runs V)
    (graph_id : String) (initial_state : Smap V) (registry : ToolRegistry V)
    (run_id : String) (max_steps : Nat) :
    Except String (RunState V) × Runs V :=
  match graphs.lookup graph_id with
  | none => (.error ("Graph '" ++ graph_id ++ "' not found"), runs)
  | some graph =>
    let run_state : RunState V :=
      { run_id := run_id,
        graph_id := graph_id,
        status := .running,
        current_node_id := some graph.start_node_id,
        state := initial_state,
        logs := [] }
    match stepLoop graph registry max_steps graph.start_node_id run_state with
    | .error (e, midRun) => (.error e, dictSet runs run_id midRun)
    | .ok finalRun => (.ok finalRun, dictSet runs run_id finalRun)

/-! ### Helper lemmas about dictionaries and edge scanning -/

theorem lookup_dictSet {V : Type} (d : Smap V) (k k' : String) (v : V) :
    (dictSet d k v).lookup k' = if k' = k then some v else d.lookup k' := by
  induction d with
  | nil =>
    by_cases h : k' = k
    · subst h; simp [dictSet, List.lookup]
    · simp [dictSet, List.lookup, beq_false_of_ne h, h]
  | cons p rest ih =>
    obtain ⟨k0, v0⟩ := p
    by_cases h0 : k0 = k
    · subst h0
      by_cases h1 : k' = k0
      · subst h1; simp [dictSet, List.lookup]
      · simp [dictSet, List.lookup, beq_false_of_ne h1, h1]
    · by_cases h1 : k' = k0
      · subst h1
        simp [dictSet, List.lookup, beq_false_of_ne h0, h0]
      · simp [dictSet, List.lookup, beq_false_of_ne h0, beq_false_of_ne h1, ih]

theorem lookup_eq_none_of_not_mem_keys {V : Type} (l : Smap V) (k : String)
    (h : k ∉ l.map Prod.fst) : l.lookup k = none := by
  induction l with
  | nil => rfl
  | cons p rest ih =>
    simp only [List.map_cons, List.mem_cons, not_or] at h
    simp [List.lookup, beq_false_of_ne h.1, ih h.2]

theorem findScan_eq_find {V : Type} (st : Smap V) (l : List (EdgeDefinition V)) :
    findScan st l = l.find? (edgeMatches st) := by
  induction l with
  | nil => rfl
  | cons e rest ih =>
    rw [List.find?_cons]
    cases hcond : e.condition with
    | none => simp [findScan, edgeMatches, hcond]
    | some c =>
      cases hc : c st with
      | error m => simp [findScan, edgeMatches, hcond, hc, ih]
      | ok b => cases b <;> simp [findScan, edgeMatches, hcond, hc, ih]

theorem find_next_edge_eq_findScan {V : Type} (g : GraphDefinition V)
    (cur : String) (st : Smap V) :
    find_next_edge g cur st =
      findScan st (g.edges.filter (fun e => e.source == cur)) := by
  unfold find_next_edge
  by_cases h : (g.edges.filter (fun e => e.source == cur)) = []
  · simp [h, findScan]
  · simp [List.isEmpty_iff, h]

theorem findScan_skip_error {V : Type} (st : Smap V)
    (e : EdgeDefinition V) (c : Smap V → Except String Bool) (msg : String)
    (hc : e.condition = some c) (herr : c st = .error msg) :
    ∀ l1 l2 : List (EdgeDefinition V),
      findScan st (l1 ++ e :: l2) = findScan st (l1 ++ l2) := by
  intro l1
  induction l1 with
  | nil => intro l2; simp [findScan, hc, herr]
  | cons a rest ih =>
    intro l2
    simp only [List.cons_append]
    cases hca : a.condition with
    | none => simp [findScan, hca]
    | some c' =>
      cases hres : c' st with
      | error m => simp [findScan, hca, hres, ih]
      | ok b => cases b <;> simp [findScan, hca, hres, ih]

theorem stepLoop_congr {V : Type} (g1 g2 : GraphDefinition V) (reg : ToolRegistry V)
    (hnodes : g1.nodes = g2.nodes)
    (hfind : ∀ cur st, find_next_edge g1 cur st = find_next_edge g2 cur st) :
    ∀ fuel cur rs, stepLoop g1 reg fuel cur rs = stepLoop g2 reg fuel cur rs := by
  intro fuel
  induction fuel with
  | zero => intro cur rs; rfl
  | succ n ih =>
    intro cur rs
    simp only [stepLoop, hnodes, hfind]
    split
    · rfl
    · split
      · rfl
      · split
        · rfl
        · exact ih _ _

/-! ### Claims -/

/-- C1: edge resolution considers only the edges whose source is the given
node, in their declared order, and returns the first of them that matches
the state: an edge whose guard evaluates true, or an edge with no guard (an
unconditional default); when no candidate matches, it returns none. -/
theorem C1_edge_resolution {V : Type} (g : GraphDefinition V)
    (current_node_id : String) (state : Smap V) :
    find_next_edge g current_node_id state =
      (g.edges.filter (fun e => e.source == current_node_id)).find?
        (edgeMatches state) := by
  unfold find_next_edge
  by_cases h : (g.edges.filter (fun e => e.source == current_node_id)) = []
  · simp [h]
  · simp [List.isEmpty_iff, h, findScan_eq_find]

/-- C3: the merge the engine performs on the run state (Python
dict.update) is right-biased: for every key, the merged mapping holds the
tool result's value when the key occurs in the tool result, and the prior
state's value otherwise. -/
theorem C3_state_merge {V : Type} (base upd : Smap V) (k : String)
    (hnodup : (upd.map Prod.fst).Nodup) :
    (dictUpdate base upd).lookup k = (upd.lookup k).or (base.lookup k) := by
  induction upd generalizing base with
  | nil => simp [dictUpdate, List.lookup]
  | cons p rest ih =>
    obtain ⟨k0, v0⟩ := p
    rw [List.map_cons, List.nodup_cons] at hnodup
    have hstep : dictUpdate base ((k0, v0) :: rest) =
        dictUpdate (dictSet base k0 v0) rest := rfl
    rw [hstep, ih _ hnodup.2]
    by_cases hk : k = k0
    · subst hk
      rw [lookup_eq_none_of_not_mem_keys rest k hnodup.1]
      simp [List.lookup, lookup_dictSet]
    · simp [List.lookup, beq_false_of_ne hk, lookup_dictSet, hk]

/-- C4: an edge whose guard errors on the current state is treated as
non-matching. First part: at any state where the guard errors, inserting
that edge anywhere among the edges leaves edge resolution unchanged
(evaluation proceeds to the next candidate in declared order). Second
part: when the guard errors on every state, the whole run is unchanged by
the edge's presence; in particular a guard-evaluation failure never aborts
the run (the step loop raises only tool errors). -/
theorem C4_erroring_guard {V : Type} (g : GraphDefinition V) (reg : ToolRegistry V)
    (pre post : List (EdgeDefinition V)) (e : EdgeDefinition V)
    (c : Smap V → Except String Bool) (hc : e.condition = some c) :
    (∀ (cur : String) (st : Smap V) (msg : String), c st = .error msg →
      find_next_edge { g with edges := pre ++ e :: post } cur st =
        find_next_edge { g with edges := pre ++ post } cur st) ∧
    ((∀ st : Smap V, ∃ msg, c st = .error msg) →
      ∀ (fuel : Nat) (cur : String) (rs : RunState V),
        stepLoop { g with edges := pre ++ e :: post } reg fuel cur rs =
          stepLoop { g with edges := pre ++ post } reg fuel cur rs) := by
  have key : ∀ (cur : String) (st : Smap V) (msg : String), c st = .error msg →
      find_next_edge { g with edges := pre ++ e :: post } cur st =
        find_next_edge { g with edges := pre ++ post } cur st := by
    intro cur st msg herr
    rw [find_next_edge_eq_findScan, find_next_edge_eq_findScan]
    simp only [List.filter_append, List.filter_cons]
    by_cases hsrc : e.source == cur
    · simp only [hsrc, if_pos trivial]
      exact findScan_skip_error st e c msg hc herr _ _
    · simp [hsrc]
  refine ⟨key, fun herr fuel cur rs => ?_⟩
  exact stepLoop_congr { g with edges := pre ++ e :: post }
    { g with edges := pre ++ post } reg rfl
    (fun cur' st' => (herr st').elim (fun msg hm => key cur' st' msg hm)) fuel cur rs

/-- Concrete guard that always errors on evaluation. -/
def exErrGuard : Smap Nat → Except String Bool := fun _ => .error "bad"

/-- Concrete guard that always evaluates true. -/
def exTrueGuard : Smap Nat → Except String Bool := fun _ => .ok true

/-- Edge from A to B whose guard always errors. -/
def exErrEdge : EdgeDefinition Nat := ⟨"A", "B", some exErrGuard⟩

/-- Edge from A to C whose guard always evaluates true. -/
def exTrueEdge : EdgeDefinition Nat := ⟨"A", "C", some exTrueGuard⟩

/-- Empty graph shell for edge-resolution examples. -/
def exG0 : GraphDefinition Nat := ⟨"g", [], [], "A"⟩

/-- Empty tool registry over Nat-valued state. -/
def exEmptyReg : ToolRegistry Nat := ⟨[]⟩

/-- Witness for C4: with the erroring edge placed before a matching edge,
resolution is the same as without the erroring edge. -/
theorem C4_erroring_guard_witness :
    (exErrEdge.condition = some exErrGuard) ∧
    (find_next_edge { exG0 with edges := [] ++ exErrEdge :: [exTrueEdge] } "A" [] =
      find_next_edge { exG0 with edges := [] ++ [exTrueEdge] } "A" []) :=
  ⟨rfl,
    (C4_erroring_guard exG0 exEmptyReg [] [exTrueEdge] exErrEdge exErrGuard rfl).1
      "A" [] "bad" rfl⟩

/-- C5: running an unknown graph id raises KeyError to the caller before
any run record is created: the run store is returned unchanged. -/
theorem C5_unknown_graph {V : Type} (graphsS : Graphs V) (runsS : Runs V)
    (gid : String) (init : Smap V) (reg : ToolRegistry V) (rid : String) (m : Nat)
    (h : graphsS.lookup gid = none) :
    run_graph_once graphsS runsS gid init reg rid m =
      (.error ("Graph '" ++ gid ++ "' not found"), runsS) := by
  simp [run_graph_once, h]

/-- A pre-existing pending run record, to show the store is untouched. -/
def exPendingRun : RunState Nat :=
  { run_id := "r0", graph_id := "h", status := .pending,
    current_node_id := none, state := [], logs := [] }

/-- Witness for C5: an empty graph store and a non-empty run store. -/
theorem C5_unknown_graph_witness :
    ((([] : Graphs Nat).lookup "g") = none) ∧
    (run_graph_once ([] : Graphs Nat) [("r0", exPendingRun)]
        "g" [] exEmptyReg "r1" 7 =
      (.error ("Graph '" ++ "g" ++ "' not found"), [("r0", exPendingRun)])) :=
  ⟨rfl, C5_unknown_graph [] [("r0", exPendingRun)] "g" [] exEmptyReg "r1" 7 rfl⟩

/-- C6: when the current node id matches no node of the graph, the run is
marked FAILED with a log entry noting the missing node and execution stops,
as the run's own terminal state, never as an exception. First part: at any
point of a run. Second part: at the caller's boundary, run_graph_once
returns an ordinary RunState for such a graph. -/
theorem C6_missing_node {V : Type} (g : GraphDefinition V) (reg : ToolRegistry V) :
    (∀ (fuel : Nat) (cur : String) (rs : RunState V),
      g.nodes.find? (fun n => n.id == cur) = none →
      stepLoop g reg (fuel + 1) cur rs =
        .ok { rs with
              status := .failed,
              logs := rs.logs ++ [{ node_id := cur, state_snapshot := rs.state,
                                    message := some (missingNodeMessage cur) }] }) ∧
    (∀ (graphsS : Graphs V) (runsS : Runs V) (gid : String) (init : Smap V)
        (rid : String) (m : Nat),
      graphsS.lookup gid = some g →
      g.nodes.find? (fun n => n.id == g.start_node_id) = none →
      0 < m →
      (run_graph_once graphsS runsS gid init reg rid m).1 =
        .ok { run_id := rid, graph_id := gid, status := .failed,
              current_node_id := some g.start_node_id, state := init,
              logs := [{ node_id := g.start_node_id, state_snapshot := init,
                         message := some (missingNodeMessage g.start_node_id) }] }) := by
  have step : ∀ (fuel : Nat) (cur : String) (rs : RunState V),
      g.nodes.find? (fun n => n.id == cur) = none →
      stepLoop g reg (fuel + 1) cur rs =
        .ok { rs with
              status := .failed,
              logs := rs.logs ++ [{ node_id := cur, state_snapshot := rs.state,
                                    message := some (missingNodeMessage cur) }] } := by
    intro fuel cur rs h
    simp only [stepLoop, h]
  refine ⟨step, fun graphsS runsS gid init rid m hg hmiss hm => ?_⟩
  obtain ⟨k, rfl⟩ : ∃ k, m = k + 1 := ⟨m - 1, (Nat.succ_pred_eq_of_pos hm).symm⟩
  simp only [run_graph_once, hg]
  rw [step k g.start_node_id _ hmiss]
  rfl

/-- Graph whose start node X is absent from its node list. -/
def exMissingGraph : GraphDefinition Nat := ⟨"g2", [], [], "X"⟩

/-- Witness for C6: running the graph with the absent start node. -/
theorem C6_missing_node_witness :
    (exMissingGraph.nodes.find? (fun n => n.id == "X") = none) ∧
    ((run_graph_once [("g2", exMissingGraph)] [] "g2" [] exEmptyReg "r2" 5).1 =
      .ok { run_id := "r2", graph_id := "g2", status := .failed,
            current_node_id := some "X", state := [],
            logs := [{ node_id := "X", state_snapshot := [],
                       message := some (missingNodeMessage "X") }] }) :=
  ⟨rfl,
    (C6_missing_node exMissingGraph exEmptyReg).2 [("g2", exMissingGraph)] []
      "g2" [] "r2" 5 rfl rfl (by decide)⟩

theorem stepLoop_cni {V : Type} (g : GraphDefinition V) (reg : ToolRegistry V) :
    ∀ (fuel : Nat) (cur : String) (rs final : RunState V),
      rs.current_node_id ≠ none →
      stepLoop g reg fuel cur rs = .ok final →
      (final.current_node_id = none ↔ final.status = .completed) := by
  intro fuel
  induction fuel with
  | zero =>
    intro cur rs final hne h
    simp only [stepLoop, Except.ok.injEq] at h
    subst h
    constructor
    · intro hc; exact absurd hc hne
    · intro hs; exact absurd hs (by simp)
  | succ n ih =>
    intro cur rs final hne h
    simp only [stepLoop] at h
    split at h
    · simp only [Except.ok.injEq] at h
      subst h
      constructor
      · intro hc; exact absurd hc hne
      · intro hs; exact absurd hs (by simp)
    · split at h
      · simp at h
      · split at h
        · simp only [Except.ok.injEq] at h
          subst h
          simp
        · rename_i edge _
          exact ih edge.target _ final (by simp) h

/-- Counterexample for C7: on the graph whose start node is absent, the
run ends FAILED with current node id still set to the missing node, not
null. -/
theorem C7_counterexample :
    ((run_graph_once [("g2", exMissingGraph)] [] "g2" [] exEmptyReg "r2" 5).1.toOption.map
        (fun f => (f.status, f.current_node_id)) =
      some (RunStatus.failed, some "X")) ∧
    (some "X" ≠ (none : Option String)) :=
  ⟨rfl, by simp⟩

/-- C7 amended: when run_graph_once returns a run normally, its current
node id is null exactly when the run COMPLETED; a FAILED run (missing node
or step-limit exhaustion) keeps the node id it failed at. -/
theorem C7_terminal_node_id {V : Type} (graphsS : Graphs V) (runsS : Runs V)
    (gid : String) (init : Smap V) (reg : ToolRegistry V) (rid : String)
    (m : Nat) (final : RunState V)
    (h : (run_graph_once graphsS runsS gid init reg rid m).1 = .ok final) :
    (final.current_node_id = none ↔ final.status = .completed) := by
  unfold run_graph_once at h
  split at h
  · simp at h
  · rename_i g hg
    dsimp only at h
    split at h
    · simp at h
    · rename_i f hs
      simp only [Except.ok.injEq] at h
      subst h
      exact stepLoop_cni g reg m g.start_node_id _ f (by simp) hs

/-- The run record produced by the missing-start-node scenario. -/
def exMissingFinal : RunState Nat :=
  { run_id := "r2", graph_id := "g2", status := .failed,
    current_node_id := some "X", state := [],
    logs := [{ node_id := "X", state_snapshot := [],
               message := some (missingNodeMessage "X") }] }

/-- Witness for the amended C7 at the missing-start-node run. -/
theorem C7_terminal_node_id_witness :
    ((run_graph_once [("g2", exMissingGraph)] [] "g2" [] exEmptyReg "r2" 5).1 =
      .ok exMissingFinal) ∧
    (exMissingFinal.current_node_id = none ↔
      exMissingFinal.status = RunStatus.completed) :=
  ⟨rfl, C7_terminal_node_id [("g2", exMissingGraph)] [] "g2" [] exEmptyReg
    "r2" 5 exMissingFinal rfl⟩

theorem stepLoop_exhausts {V : Type} (g : GraphDefinition V) (reg : ToolRegistry V)
    (S : String → Prop)
    (hstep : ∀ (c : String) (st : Smap V), S c →
      ∃ node, g.nodes.find? (fun n => n.id == c) = some node ∧
      ∃ tr, reg.run_tool node.tool_name st = .ok tr ∧
      ∃ edge, find_next_edge g c (dictUpdate st tr) = some edge ∧ S edge.target) :
    ∀ (fuel : Nat) (cur : String) (rs : RunState V), S cur →
      ∃ final : RunState V,
        stepLoop g reg fuel cur rs = .ok final ∧
        final.status = .failed ∧
        final.logs.length = rs.logs.length + (fuel + 1) ∧
        ∃ last, final.logs.getLast? = some last ∧
          last.message = some maxStepsMessage := by
  intro fuel
  induction fuel with
  | zero =>
    intro cur rs _
    refine ⟨_, rfl, rfl, by simp, ?_⟩
    exact ⟨_, List.getLast?_append_cons rs.logs _ [], rfl⟩
  | succ n ih =>
    intro cur rs hS
    obtain ⟨node, hnode, tr, htr, edge, hedge, hS'⟩ := hstep cur rs.state hS
    obtain ⟨final, hrun, hst, hlen, hlast⟩ :=
      ih edge.target
        { rs with
          state := dictUpdate rs.state tr,
          logs := rs.logs ++ [{ node_id := node.id,
                                state_snapshot := dictUpdate rs.state tr,
                                message := some (executedMessage node.tool_name) }],
          current_node_id := some edge.target } hS'
    refine ⟨final, ?_, hst, ?_, hlast⟩
    · simp only [stepLoop, hnode, htr, hedge]
      exact hrun
    · simp only [List.length_append, List.length_cons, List.length_nil] at hlen
      omega

/-- Tool inc: returns the dict mapping n to its prior value plus one. -/
def incTool : Tool Nat := fun s => .ok [("n", ((s.lookup "n").getD 0) + 1)]

/-- Guard comparing the counter: true while n is below 100 (never false
within five steps). -/
def counterGuard : Smap Nat → Except String Bool :=
  fun s => .ok (((s.lookup "n").getD 0) < 100)

/-- Single self-loop node A running inc, guarded by the counter guard. -/
def loopGraph : GraphDefinition Nat :=
  { id := "g1", nodes := [⟨"A", "inc"⟩],
    edges := [⟨"A", "A", some counterGuard⟩], start_node_id := "A" }

/-- Registry holding the inc tool. -/
def loopReg : ToolRegistry Nat := ⟨[("inc", incTool)]⟩

/-- Counterexample for C2: the single self-loop scenario with maxSteps 5
and a guard that never becomes false ends FAILED, but its log has 6
entries (5 tool executions plus the step-limit abort entry), not 5. -/
theorem C2_counterexample :
    ((run_graph_once [("g1", loopGraph)] [] "g1" [] loopReg "r1" 5).1.toOption.map
        (fun f => (f.status, f.logs.length)) = some (RunStatus.failed, 6)) ∧
    ((run_graph_once [("g1", loopGraph)] [] "g1" [] loopReg "r1" 5).1.toOption.map
        (fun f => (f.status, f.logs.length)) ≠ some (RunStatus.failed, 5)) := by
  constructor
  · rfl
  · decide

/-- C2 amended: on a graph whose cycle never exits (from every node the
run can reach, the node resolves, its tool returns a dict, and an edge is
found), the run ends FAILED after exactly maxSteps node executions; the
log holds one entry per executed node plus a final entry describing the
step-limit abort, so its length is maxSteps + 1 (not maxSteps). -/
theorem C2_step_limit {V : Type} (g : GraphDefinition V) (reg : ToolRegistry V)
    (graphsS : Graphs V) (runsS : Runs V) (gid : String) (init : Smap V)
    (rid : String) (m : Nat) (S : String → Prop)
    (hg : graphsS.lookup gid = some g)
    (hS0 : S g.start_node_id)
    (hstep : ∀ (c : String) (st : Smap V), S c →
      ∃ node, g.nodes.find? (fun n => n.id == c) = some node ∧
      ∃ tr, reg.run_tool node.tool_name st = .ok tr ∧
      ∃ edge, find_next_edge g c (dictUpdate st tr) = some edge ∧ S edge.target) :
    ∃ final : RunState V,
      (run_graph_once graphsS runsS gid init reg rid m).1 = .ok final ∧
      final.status = .failed ∧
      final.logs.length = m + 1 ∧
      ∃ last, final.logs.getLast? = some last ∧
        last.message = some maxStepsMessage := by
  obtain ⟨final, hrun, hst, hlen, hlast⟩ :=
    stepLoop_exhausts g reg S hstep m g.start_node_id
      { run_id := rid, graph_id := gid, status := .running,
        current_node_id := some g.start_node_id, state := init, logs := [] } hS0
  refine ⟨final, ?_, hst, ?_, hlast⟩
  · simp only [run_graph_once, hg]
    rw [hrun]
  · simpa using hlen

/-- Self-loop graph with an unconditionally true guard, for the witness. -/
def loopGraphTrue : GraphDefinition Nat :=
  { id := "g5", nodes := [⟨"A", "inc"⟩],
    edges := [⟨"A", "A", some exTrueGuard⟩], start_node_id := "A" }

/-- Witness for the amended C2: the self-loop with an always-true guard
and maxSteps 5 ends FAILED with 6 log entries. -/
theorem C2_step_limit_witness :
    (([("g5", loopGraphTrue)] : Graphs Nat).lookup "g5" = some loopGraphTrue) ∧
    (∃ final : RunState Nat,
      (run_graph_once [("g5", loopGraphTrue)] [] "g5" [] loopReg "r5" 5).1 =
        .ok final ∧
      final.status = .failed ∧
      final.logs.length = 5 + 1 ∧
      ∃ last, final.logs.getLast? = some last ∧
        last.message = some maxStepsMessage) :=
  ⟨rfl,
    C2_step_limit loopGraphTrue loopReg [("g5", loopGraphTrue)] [] "g5" [] "r5" 5
      (fun c => c = "A") rfl rfl
      (fun c st hc => by
        subst hc
        exact ⟨⟨"A", "inc"⟩, rfl, [("n", ((st.lookup "n").getD 0) + 1)], rfl,
          ⟨"A", "A", some exTrueGuard⟩, rfl, rfl⟩)⟩

/-- Overwrite the run id recorded in a step-loop result, on both the
normal and the exceptional branch. -/
def setRunId {V : Type} (a : String) :
    Except (String × RunState V) (RunState V) →
      Except (String × RunState V) (RunState V)
  | .ok r => .ok { r with run_id := a }
  | .error (e, r) => .error (e, { r with run_id := a })

theorem stepLoop_setRunId {V : Type} (g : GraphDefinition V) (reg : ToolRegistry V)
    (a : String) : ∀ (fuel : Nat) (cur : String) (rs : RunState V),
    stepLoop g reg fuel cur { rs with run_id := a } =
      setRunId a (stepLoop g reg fuel cur rs) := by
  intro fuel
  induction fuel with
  | zero => intro cur rs; rfl
  | succ n ih =>
    intro cur rs
    simp only [stepLoop]
    split
    · rfl
    · split
      · rfl
      · split
        · rfl
        · rename_i x1 node hnode x2 tr htool x3 edge hedge
          exact ih edge.target
            { rs with
              state := dictUpdate rs.state tr,
              logs := rs.logs ++ [{ node_id := node.id,
                                    state_snapshot := dictUpdate rs.state tr,
                                    message := some (executedMessage node.tool_name) }],
              current_node_id := some edge.target }

/-- C9: two executions of the same graph on the same initial state differ
only in the fresh run id (and in which run store they write to); the log
node-id sequence and the final state mapping are identical, or both raise
the same error. Tools are embedded as functions of the state, so they have
no external side effects by construction. -/
theorem C9_determinism {V : Type} (graphsS : Graphs V) (runs1 runs2 : Runs V)
    (gid : String) (init : Smap V) (reg : ToolRegistry V)
    (rid1 rid2 : String) (m : Nat) :
    ((run_graph_once graphsS runs1 gid init reg rid1 m).1.map
        (fun f => (f.logs.map RunLogEntry.node_id, f.state))) =
    ((run_graph_once graphsS runs2 gid init reg rid2 m).1.map
        (fun f => (f.logs.map RunLogEntry.node_id, f.state))) := by
  unfold run_graph_once
  cases hg : graphsS.lookup gid with
  | none => rfl
  | some g =>
    dsimp only
    have h : stepLoop g reg m g.start_node_id
        { run_id := rid1, graph_id := gid, status := .running,
          current_node_id := some g.start_node_id, state := init, logs := [] } =
        setRunId rid1 (stepLoop g reg m g.start_node_id
          { run_id := rid2, graph_id := gid, status := .running,
            current_node_id := some g.start_node_id, state := init, logs := [] }) :=
      stepLoop_setRunId g reg rid1 m g.start_node_id
        { run_id := rid2, graph_id := gid, status := .running,
          current_node_id := some g.start_node_id, state := init, logs := [] }
    rw [h]
    cases stepLoop g reg m g.start_node_id
        { run_id := rid2, graph_id := gid, status := .running,
          current_node_id := some g.start_node_id, state := init, logs := [] } with
    | error p => obtain ⟨e, mid⟩ := p; rfl
    | ok f => rfl

theorem stepLoop_error_status {V : Type} (g : GraphDefinition V)
    (reg : ToolRegistry V) : ∀ (fuel : Nat) (cur : String) (rs : RunState V)
    (e : String) (mid : RunState V),
    stepLoop g reg fuel cur rs = .error (e, mid) → mid.status = rs.status := by
  intro fuel
  induction fuel with
  | zero => intro cur rs e mid h; simp [stepLoop] at h
  | succ n ih =>
    intro cur rs e mid h
    simp only [stepLoop] at h
    split at h
    · simp at h
    · split at h
      · simp only [Except.error.injEq, Prod.mk.injEq] at h
        obtain ⟨-, rfl⟩ := h
        rfl
      · split at h
        · simp at h
        · rename_i x1 node hnode x2 tr htool x3 edge hedge
          exact ih edge.target
            { rs with
              state := dictUpdate rs.state tr,
              logs := rs.logs ++ [{ node_id := node.id,
                                    state_snapshot := dictUpdate rs.state tr,
                                    message := some (executedMessage node.tool_name) }],
              current_node_id := some edge.target } e mid h

/-- C10: a tool invocation that raises (a raising tool, an unregistered
tool name, or a non-dict return value, all of which run_tool surfaces as
errors) propagates out of run_graph_once uncaught. First part: at the
failing step no log entry is appended and the run record is exactly as it
stood. Second part: at the caller's boundary the stored run record keeps
status RUNNING with the logs accumulated before the failing step. -/
theorem C10_tool_error {V : Type} (g : GraphDefinition V) (reg : ToolRegistry V) :
    (∀ (fuel : Nat) (cur : String) (rs : RunState V) (node : NodeDefinition)
        (msg : String),
      g.nodes.find? (fun n => n.id == cur) = some node →
      reg.run_tool node.tool_name rs.state = .error msg →
      stepLoop g reg (fuel + 1) cur rs = .error (msg, rs)) ∧
    (∀ (graphsS : Graphs V) (runsS : Runs V) (gid : String) (init : Smap V)
        (rid : String) (m : Nat) (e : String),
      graphsS.lookup gid = some g →
      (run_graph_once graphsS runsS gid init reg rid m).1 = .error e →
      ∃ mid : RunState V,
        run_graph_once graphsS runsS gid init reg rid m =
          (.error e, dictSet runsS rid mid) ∧
        mid.status = .running) := by
  constructor
  · intro fuel cur rs node msg hnode htool
    simp only [stepLoop, hnode, htool]
  · intro graphsS runsS gid init rid m e hg h
    simp only [run_graph_once, hg] at h ⊢
    split at h
    · rename_i e' mid hs
      simp only [Except.error.injEq] at h
      subst h
      refine ⟨mid, rfl, ?_⟩
      exact stepLoop_error_status g reg m g.start_node_id _ e' mid hs
    · simp at h

/-- Tool that always raises. -/
def boomTool : Tool Nat := fun _ => .raises "boom"

/-- Graph with a single node whose tool raises. -/
def boomGraph : GraphDefinition Nat :=
  { id := "g4", nodes := [⟨"A", "boom"⟩], edges := [], start_node_id := "A" }

/-- Registry holding the raising tool. -/
def boomReg : ToolRegistry Nat := ⟨[("boom", boomTool)]⟩

/-- Witness for C10 on the raising-tool scenario. -/
theorem C10_tool_error_witness :
    (boomGraph.nodes.find? (fun n => n.id == "A") = some ⟨"A", "boom"⟩) ∧
    (boomReg.run_tool "boom" [] = .error "boom") ∧
    (([("g4", boomGraph)] : Graphs Nat).lookup "g4" = some boomGraph) ∧
    ((run_graph_once [("g4", boomGraph)] [] "g4" [] boomReg "r4" 5).1 =
      .error "boom") ∧
    (∃ mid : RunState Nat,
      run_graph_once [("g4", boomGraph)] [] "g4" [] boomReg "r4" 5 =
        (.error "boom", dictSet [] "r4" mid) ∧
      mid.status = .running) :=
  ⟨rfl, rfl, rfl, rfl,
    (C10_tool_error boomGraph boomReg).2 [("g4", boomGraph)] [] "g4" [] "r4" 5
      "boom" rfl rfl⟩

/-- A Python value held in the run state: an immediate value or a
reference to a heap cell holding a nested mutable dict. Models Python
reference semantics for the nested values the engine state may hold. -/
inductive PyVal where
  | int (n : Int)
  | ref (addr : Nat)
deriving DecidableEq, Repr

/-- Heap of mutable nested dicts, keyed by address. -/
abbrev Heap := List (Nat × Smap PyVal)

/-- Python dict.copy, the snapshot taken at engine.py line 98
(run_state.state.copy()): a new top-level dict holding the same
key-to-value bindings; a reference to a nested object is copied as the
same reference, so the nested object itself is shared (a shallow copy, in
contrast to copy.deepcopy). -/
def dictCopy (d : Smap PyVal) : Smap PyVal := d.map (fun kv => kv)

/-- In-place mutation of the nested dict at an address, as a Python tool
that assigns into a nested dict of the state would do. -/
def heapWrite (h : Heap) (a : Nat) (k : String) (v : PyVal) : Heap :=
  h.map (fun cell => if cell.1 = a then (cell.1, dictSet cell.2 k v) else cell)

/-- What a dict shows for key k1 then nested key k2, reading the nested
reference through the heap. -/
def readNested (h : Heap) (d : Smap PyVal) (k1 k2 : String) : Option PyVal :=
  match d.lookup k1 with
  | some (.ref a) =>
    match h.lookup a with
    | some inner => inner.lookup k2
    | _ => none
  | _ => none

/-- State whose key inner refers to the nested dict at address 0. -/
def exNestedState : Smap PyVal := [("inner", .ref 0)]

/-- Heap where that nested dict maps n to 0. -/
def exHeap : Heap := [(0, [("n", .int 0)])]

/-- Counterexample for C8: the snapshot is dict.copy, a shallow copy, so
mutating a nested value after the snapshot changes what the snapshot
shows: before the mutation the snapshot reads nested n as 0, after it as
1 — not the unchanged deep copy the claim asserts. -/
theorem C8_counterexample :
    (readNested exHeap (dictCopy exNestedState) "inner" "n" = some (.int 0)) ∧
    (readNested (heapWrite exHeap 0 "n" (.int 1)) (dictCopy exNestedState)
        "inner" "n" = some (.int 1)) ∧
    some (PyVal.int 1) ≠ some (PyVal.int 0) := by
  exact ⟨rfl, rfl, by decide⟩

/-- C8 amended: each log entry's snapshot is a copy of the top-level state
mapping at that step, and the log is append-only — later steps only extend
it and never alter previously appended entries — but the copy is shallow
(Python dict.copy), so nested mutable values are shared with the live
state and an in-place mutation of a nested object is visible through past
snapshots. -/
theorem C8_append_only {V : Type} (g : GraphDefinition V) (reg : ToolRegistry V) :
    ∀ (fuel : Nat) (cur : String) (rs final : RunState V),
      stepLoop g reg fuel cur rs = .ok final →
      ∃ rest, final.logs = rs.logs ++ rest := by
  intro fuel
  induction fuel with
  | zero =>
    intro cur rs final h
    simp only [stepLoop, Except.ok.injEq] at h
    subst h
    exact ⟨_, rfl⟩
  | succ n ih =>
    intro cur rs final h
    simp only [stepLoop] at h
    split at h
    · simp only [Except.ok.injEq] at h
      subst h
      exact ⟨_, rfl⟩
    · split at h
      · simp at h
      · split at h
        · simp only [Except.ok.injEq] at h
          subst h
          exact ⟨_, rfl⟩
        · rename_i x1 node hnode x2 tr htool x3 edge hedge
          obtain ⟨rest, hrest⟩ := ih edge.target _ final h
          refine ⟨{ node_id := node.id,
                    state_snapshot := dictUpdate rs.state tr,
                    message := some (executedMessage node.tool_name) } :: rest, ?_⟩
          rw [hrest]
          simp

/-- Witness for the amended C8 on the completing single-node run. -/
theorem C8_append_only_witness :
    (stepLoop loopGraphTrue loopReg 0 "A"
        { run_id := "r", graph_id := "g5", status := .running,
          current_node_id := some "A", state := [], logs := [] } =
      .ok { run_id := "r", graph_id := "g5", status := .failed,
            current_node_id := some "A", state := [],
            logs := [{ node_id := "A", state_snapshot := [],
                       message := some maxStepsMessage }] }) ∧
    (∃ rest, ([{ node_id := "A", state_snapshot := ([] : Smap Nat),
                 message := some maxStepsMessage }] :
        List (RunLogEntry Nat)) = [] ++ rest) :=
  ⟨rfl,
    C8_append_only loopGraphTrue loopReg 0 "A"
      { run_id := "r", graph_id := "g5", status := .running,
        current_node_id := some "A", state := [], logs := [] }
      { run_id := "r", graph_id := "g5", status := .failed,
        current_node_id := some "A", state := [],
        logs := [{ node_id := "A", state_snapshot := [],
                   message := some maxStepsMessage }] } rfl⟩

/-- Witness for C3 at the spec's example: prior state x maps to 0 and y
maps to 2, tool result x maps to 1. -/
theorem C3_state_merge_witness :
    (([("x", (1 : Nat))].map Prod.fst).Nodup) ∧
    ((dictUpdate [("x", (0 : Nat)), ("y", 2)] [("x", 1)]).lookup "x" =
      (([("x", (1 : Nat))] : Smap Nat).lookup "x").or
        (([("x", (0 : Nat)), ("y", 2)] : Smap Nat).lookup "x")) :=
  ⟨by decide, C3_state_merge [("x", 0), ("y", 2)] [("x", 1)] "x" (by decide)⟩

end Tredence
